import Mathlib

/-!
Shallow embedding of the loxone monitoring client (src/loxone) in Lean 4.

The embedding covers:
  * the change-classification model of `src/loxone/model.py`
    (`ChangeResponse`, `RawValue`, `BoolValue`, `RoundedValue`, the
    registry lookup of `Registry.update` inherited by `Building`);
  * the ingest / persistence loop of `src/loxone/monitor.py`
    (`process_updates`, `persist_data`, `scheduled_persist`) with the
    database call abstracted into an explicit success/failure outcome;
  * the connection supervisor of `src/loxone/monitor.py`
    (`listen`, `process`), with exceptions modelled by `Except`;
  * the frame-header parser and value-state identifier rendering of
    `src/loxone/loxone_server.py` (`MessageHeader.parse`,
    `MessageBody.parseValueStates`), and `_zero_pad` / `encrypt_command`
    (AES-CBC abstracted into an arbitrary block transformation);
  * the LZ-style decompressor loop of
    `src/loxone/download_miniserver.py` (`uncompress`).

Python floats are modelled as rationals; the Python builtin round
(round half to even) is `pyRound`; Python byte strings are `List Nat`;
Python list/bytes slices (with negative indices and clamping) are
`pySlice` / `pySliceFrom`.
-/

/-- `ChangeResponse` enum of src/loxone/model.py (IMMEDIATE = 2, LATER = 1, NO = 0). -/
inductive ChangeResponse
  | IMMEDIATE
  | LATER
  | NO
deriving DecidableEq, Repr

/-- The `value` of each `ChangeResponse` enum member. -/
def ChangeResponse.value : ChangeResponse → Nat
  | .IMMEDIATE => 2
  | .LATER => 1
  | .NO => 0

/-- The Python coercion bool(x) on a float: false exactly when the value is zero. -/
def pyBool (x : ℚ) : Bool := decide (x ≠ 0)

/-- Floor of a rational, matching real-number floor (used to model Python `round`). -/
def ratFloor (q : ℚ) : ℤ := q.num.fdiv q.den

/-- The Python builtin round on a rational value: round half to even. -/
def pyRound (q : ℚ) : ℤ :=
  let f := ratFloor q
  let r := q - (f : ℚ)
  if r < 1/2 then f
  else if (1:ℚ)/2 < r then f + 1
  else if f % 2 = 0 then f else f + 1

/-- `round(value / self.scale) * self.scale` of `RoundedValue.setValue`
(src/loxone/model.py line 61): round to the nearest multiple of `scale`. -/
def quantize (scale v : ℚ) : ℚ := (pyRound (v / scale) : ℚ) * scale

/-- State of a `RawValue` leaf (src/loxone/model.py lines 21-37): the stored
value (`None` initially) and the `changeResponse` configured at construction. -/
structure RawValue (α : Type) where
  value : Option α
  changeResponse : ChangeResponse
deriving DecidableEq, Repr

/-- `RawValue.setValue` (src/loxone/model.py lines 32-37): if the candidate
equals the stored value return `NO`; otherwise store it and return the
configured change class. -/
def RawValue.setValue {α : Type} [DecidableEq α] (s : RawValue α) (v : Option α) :
    ChangeResponse × RawValue α :=
  if s.value = v then (ChangeResponse.NO, s)
  else (s.changeResponse, { s with value := v })

/-- State of a `BoolValue` leaf (src/loxone/model.py lines 40-48). -/
structure BoolValue where
  raw : RawValue Bool
deriving DecidableEq, Repr

/-- `BoolValue.setValue` (src/loxone/model.py lines 44-48): `None` is passed
through; any other float is coerced with `bool(...)` before the comparison. -/
def BoolValue.setValue (s : BoolValue) (v : Option ℚ) : ChangeResponse × BoolValue :=
  match v with
  | none =>
      let p := s.raw.setValue none
      (p.1, ⟨p.2⟩)
  | some x =>
      let p := s.raw.setValue (some (pyBool x))
      (p.1, ⟨p.2⟩)

/-- State of a `RoundedValue` leaf (src/loxone/model.py lines 51-61). -/
structure RoundedValue where
  raw : RawValue ℚ
  scale : ℚ
deriving DecidableEq, Repr

/-- `RoundedValue.setValue` (src/loxone/model.py lines 56-61): `None` is passed
through; any other float is quantized to the nearest multiple of `scale`
before the comparison. -/
def RoundedValue.setValue (s : RoundedValue) (v : Option ℚ) : ChangeResponse × RoundedValue :=
  match v with
  | none =>
      let p := s.raw.setValue none
      (p.1, ⟨p.2, s.scale⟩)
  | some x =>
      let p := s.raw.setValue (some (quantize s.scale x))
      (p.1, ⟨p.2, s.scale⟩)

/-- A leaf registered in the routing table: either a `BoolValue` or a
`RoundedValue` (the two concrete `RawValue` kinds of src/loxone/model.py). -/
inductive Leaf
  | boolLeaf : BoolValue → Leaf
  | roundedLeaf : RoundedValue → Leaf
deriving DecidableEq, Repr

/-- `Callback.update` (src/loxone/model.py lines 110-111): dispatch to the
setValue of the leaf. -/
def Leaf.update (l : Leaf) (v : Option ℚ) : ChangeResponse × Leaf :=
  match l with
  | .boolLeaf s =>
      let p := s.setValue v
      (p.1, .boolLeaf p.2)
  | .roundedLeaf s =>
      let p := s.setValue v
      (p.1, .roundedLeaf p.2)

/-- The `Building` state relevant to the monitor (src/loxone/model.py lines
163-172): the routing table of the registry (identifier to leaf), the `change`
cursor and the `lastPersisted` unix-seconds cursor.  The per-room aggregate
structure only affects the contents of the persisted rows, which the claims
do not inspect, so it is not carried here. -/
structure Building where
  registry : List (String × Leaf)
  change : ChangeResponse
  lastPersisted : Int
deriving DecidableEq, Repr

/-- `Registry.update` (src/loxone/model.py lines 154-160), inherited by
`Building`: route the identifier to its registered leaf and return the change
response of that leaf; an unregistered identifier yields `NO`.  Note that this
method does not touch `Building.change`.  (The debug-log lookup of
`self.typing` is omitted.) -/
def Building.update (b : Building) (id : String) (v : Option ℚ) : ChangeResponse × Building :=
  match b.registry.lookup id with
  | some leaf =>
      let p := leaf.update v
      (p.1, { b with registry := b.registry.map (fun q => if q.1 = id then (id, p.2) else q) })
  | none => (ChangeResponse.NO, b)

/-- One iteration of the per-update loop of `process_updates`
(src/loxone/monitor.py lines 50-53): apply `building.update` and raise
`building.change` when the returned class is strictly higher. -/
def processOneUpdate (b : Building) (id : String) (v : Option ℚ) : Building :=
  let p := Building.update b id v
  if p.1.value > p.2.change.value then { p.2 with change := p.1 } else p.2

/-- The whole batch loop of `process_updates` over the records of a
value-state message (src/loxone/monitor.py lines 50-53). -/
def processUpdatesBatch (b : Building) (states : List (String × Option ℚ)) : Building :=
  states.foldl (fun acc p => processOneUpdate acc p.1 p.2) b

/-- `MAX_AGGREGATION_SECONDS` (src/loxone/monitor.py line 26). -/
def MAX_AGGREGATION_SECONDS : Int := 30

/-- Outcome of the database round-trip performed by `persist_data`
(`asyncpg.connect` plus the INSERTs inside the transaction): either all
calls succeed, or some call raises. -/
inductive DbOutcome
  | ok
  | fail
deriving DecidableEq, Repr

/-- The exception escaping a failed `persist_data` call. -/
inductive PersistError
  | dbError
deriving DecidableEq, Repr

/-- Result of one `persist_data` call: the building state afterwards, the
snapshot timestamp used for the committed rows (when a transaction committed),
and the exception, if one escaped. -/
structure PersistResult where
  building : Building
  rowsTime : Option Int
  error : Option PersistError
deriving DecidableEq, Repr

/-- `persist_data` (src/loxone/monitor.py lines 70-131).  `unix` is
`int(now.timestamp())` for the snapshot time `now` (current time with
`microsecond=0`, i.e. rounded down to the second); the same `now` is used for
every inserted row.  If `change == NO`, return with no side effect; if
`change != IMMEDIATE` and the last persist is younger than
`MAX_AGGREGATION_SECONDS`, return with no side effect; if the uri is the
literal `"none"`, skip the database but still reset the cursors; otherwise run
the transaction: on success set `lastPersisted = unix` and `change = NO`, on
failure the exception propagates and both cursors keep their values (the
assignments on lines 130-131 are only reached on success). -/
def persist_data (b : Building) (uri : String) (unix : Int) (db : DbOutcome) : PersistResult :=
  if b.change = ChangeResponse.NO then ⟨b, none, none⟩
  else if b.change ≠ ChangeResponse.IMMEDIATE ∧ unix - b.lastPersisted < MAX_AGGREGATION_SECONDS then
    ⟨b, none, none⟩
  else if uri = "none" then ⟨{ b with change := ChangeResponse.NO, lastPersisted := unix }, none, none⟩
  else
    match db with
    | DbOutcome.ok => ⟨{ b with change := ChangeResponse.NO, lastPersisted := unix }, some unix, none⟩
    | DbOutcome.fail => ⟨b, none, some PersistError.dbError⟩

/-- Result of one VALUE_STATES batch of `process_updates`
(src/loxone/monitor.py lines 47-57): the building afterwards, whether
`persist_data` was invoked at the end of the batch, and the error of that
call, if any. -/
structure BatchResult where
  building : Building
  persistCalled : Bool
  error : Option PersistError
deriving DecidableEq, Repr

/-- One VALUE_STATES batch of `process_updates` (src/loxone/monitor.py lines
47-57): apply all updates, then call `persist_data` only when
`building.change.value > ChangeResponse.LATER.value`. -/
def process_updates_batch (b : Building) (states : List (String × Option ℚ)) (uri : String)
    (unix : Int) (db : DbOutcome) : BatchResult :=
  let b2 := processUpdatesBatch b states
  if b2.change.value > ChangeResponse.LATER.value then
    let r := persist_data b2 uri unix db
    ⟨r.building, true, r.error⟩
  else ⟨b2, false, none⟩

/-- `MessageHeader.Identifier` enum (src/loxone/loxone_server.py lines 62-70). -/
inductive Identifier
  | TEXT
  | FILE
  | VALUE_STATES
  | TEXT_STATES
  | DAYTIME_STATES
  | OUT_OF_SERVICE
  | KEEPALIVE
  | WEATHER_STATES
deriving DecidableEq, Repr

/-- `Identifier.convert` (src/loxone/loxone_server.py lines 72-77): the enum
member for a wire value, or `None` for an unknown value. -/
def Identifier.convert (value : Nat) : Option Identifier :=
  match value with
  | 0 => some .TEXT
  | 1 => some .FILE
  | 2 => some .VALUE_STATES
  | 3 => some .TEXT_STATES
  | 4 => some .DAYTIME_STATES
  | 5 => some .OUT_OF_SERVICE
  | 6 => some .KEEPALIVE
  | 7 => some .WEATHER_STATES
  | _ => none

/-- The five fields unpacked from one 8-byte frame header by
`struct.unpack_from` with format `<BBBBI` (src/loxone/loxone_server.py
line 97), in wire order. -/
structure RawHeader where
  binType : Nat
  identifier : Nat
  info : Nat
  reserved : Nat
  size : Nat
deriving DecidableEq, Repr

/-- `MessageHeader.parse` (src/loxone/loxone_server.py lines 91-106) over the
sequence of pending socket messages: assert the prefix byte is `0x03`, convert
the identifier (failing on unknown values), recurse onto the next message when
the info byte equals `0x80` (estimation header), assert the reserved byte is
zero, and return `(identifier, size)`. -/
def MessageHeader.parse : List RawHeader → Except String (Identifier × Nat)
  | [] => .error "no message"
  | h :: rest =>
    if h.binType ≠ 0x03 then .error "must be binary type (0x03)"
    else
      match Identifier.convert h.identifier with
      | none => .error "unknown message identifier"
      | some ident =>
        if h.info = 0x80 then MessageHeader.parse rest
        else if h.reserved ≠ 0 then .error "reserved must be empty"
        else .ok (ident, h.size)

/-- The exceptions that can end a connection attempt in
src/loxone/monitor.py: a `websockets.ConnectionClosed` with its close code, an
`AssertionError` from a handshake check, or an exception escaping the data
persistence code. -/
inductive LoxError
  | connectionClosed (code : Nat)
  | assertionError (msg : String)
  | persistError (e : PersistError)
deriving DecidableEq, Repr

/-- The task-wait phase of `listen` (src/loxone/monitor.py lines 248-260):
wait for the first task to terminate, cancel the pending tasks, and re-raise
the exception of the terminated task if it has one. -/
def superviseTasks (firstFailure : Option LoxError) : Except LoxError Unit :=
  match firstFailure with
  | some e => Except.error e
  | none => Except.ok ()

/-- `listen` (src/loxone/monitor.py lines 134-266), with the handshake phase
and the first task failure abstracted as inputs (named `listenAttempt` here
because Mathlib already has a root `listen`).  The body runs the handshake and
then the task wait; the surrounding `try`/`except websockets.ConnectionClosed`
(lines 261-266) turns a close with code 1000 into a normal return and
re-raises every other close; all other exceptions propagate unhandled. -/
def listenAttempt (handshake : Except LoxError Unit) (taskFailure : Option LoxError) :
    Except LoxError Unit :=
  match (match handshake with
         | Except.error e => Except.error e
         | Except.ok _ => superviseTasks taskFailure) with
  | Except.ok _ => Except.ok ()
  | Except.error (LoxError.connectionClosed code) =>
      if code = 1000 then Except.ok () else Except.error (LoxError.connectionClosed code)
  | Except.error e => Except.error e

/-- What the supervisor loop does after one `listen` call. -/
inductive SupervisorStep
  | reconnectAfter (seconds : Nat)
  | terminateWith (e : LoxError)
deriving DecidableEq, Repr

/-- One iteration of `process` (src/loxone/monitor.py lines 269-275): `await
listen(...)` inside `while True`; a normal return of `listen` is followed by
`asyncio.sleep(20)` and a fresh connection attempt, while an exception
propagates out of the loop and terminates the program with that error. -/
def processStep (handshake : Except LoxError Unit) (taskFailure : Option LoxError) :
    SupervisorStep :=
  match listenAttempt handshake taskFailure with
  | Except.ok _ => SupervisorStep.reconnectAfter 20
  | Except.error e => SupervisorStep.terminateWith e

/-- The inbound reply to handshake step H2 (`jdev/sys/getkey2/<user>`,
src/loxone/monitor.py lines 177-185): the identifier of the parsed frame
header and the `LL.control` / `LL.code` fields of the JSON body. -/
structure H2Response where
  identifier : Identifier
  control : String
  code : String
deriving DecidableEq, Repr

/-- Handshake steps H2 and H3 of `listen` (src/loxone/monitor.py lines
177-196), tracking the commands sent on the socket: send `jdev/sys/getkey2/`,
check the header identifier of the reply, then LL.control, then LL.code,
(each failure raising `AssertionError`), and only then send the encrypted
token command `jdev/sys/enc/<enc>` (H3); `enc` abstracts
`encrypt_command(aes_key, aes_iv, token_command)`. -/
def h2Phase (user enc : String) (resp : H2Response) : List String × Except LoxError Unit :=
  let sent := ["jdev/sys/getkey2/" ++ user]
  if resp.identifier ≠ Identifier.TEXT then
    (sent, Except.error (LoxError.assertionError "expected text (json) message"))
  else if resp.control ≠ "jdev/sys/getkey2/" ++ user then
    (sent, Except.error (LoxError.assertionError "unexpected control"))
  else if resp.code ≠ "200" then
    (sent, Except.error (LoxError.assertionError "unexpected code"))
  else (sent ++ ["jdev/sys/enc/" ++ enc], Except.ok ())

/-- The lowercase-hex digits of `n` (at least one digit), matching the Python
x format conversion; fuel-based so that it evaluates in the kernel. -/
def natToHexAux : Nat → Nat → List Char → List Char
  | 0, _, acc => acc
  | fuel+1, n, acc =>
      if n / 16 = 0 then Nat.digitChar (n % 16) :: acc
      else natToHexAux fuel (n / 16) (Nat.digitChar (n % 16) :: acc)

/-- Lowercase-hex rendering of `n`, as the Python x format conversion. -/
def natToHex (n : Nat) : List Char := natToHexAux (n+1) n []

/-- Python zero-padded hex formatting with minimum width `w` (the 08x, 04x and
02x format conversions): lowercase hex, zero-padded on the left. -/
def hexPad (w n : Nat) : List Char :=
  List.replicate (w - (natToHex n).length) '0' ++ natToHex n

/-- The identifier rendering of `MessageBody.parseValueStates`
(src/loxone/loxone_server.py lines 133-134) applied to the first 16 bytes of
one 24-byte value-state record: unpack `<I2H8B` (little-endian u32, two
little-endian u16, 8 single bytes) and format as
`{:08x}-{:04x}-{:04x}-` followed by eight `{:02x}` groups. -/
def renderValueId (b : List Nat) : String :=
  let u0 := b.getD 0 0 + 256 * b.getD 1 0 + 65536 * b.getD 2 0 + 16777216 * b.getD 3 0
  let u1 := b.getD 4 0 + 256 * b.getD 5 0
  let u2 := b.getD 6 0 + 256 * b.getD 7 0
  String.mk (hexPad 8 u0 ++ '-' ::
    (hexPad 4 u1 ++ '-' ::
      (hexPad 4 u2 ++ '-' ::
        (hexPad 2 (b.getD 8 0) ++ hexPad 2 (b.getD 9 0) ++ hexPad 2 (b.getD 10 0) ++
         hexPad 2 (b.getD 11 0) ++ hexPad 2 (b.getD 12 0) ++ hexPad 2 (b.getD 13 0) ++
         hexPad 2 (b.getD 14 0) ++ hexPad 2 (b.getD 15 0)))))

/-- Effective index of a Python slice bound `i` on a sequence of length `n`:
negative indices count from the end, and both directions clamp into `[0, n]`. -/
def pySliceIdx (n : Nat) (i : Int) : Nat :=
  if i < 0 then ((n : Int) + i).toNat else min i.toNat n

/-- Python slicing l[a:b] for integer bounds. -/
def pySlice (l : List Nat) (a b : Int) : List Nat :=
  (l.drop (pySliceIdx l.length a)).take (pySliceIdx l.length b - pySliceIdx l.length a)

/-- Python slicing l[a:] for an integer bound. -/
def pySliceFrom (l : List Nat) (a : Int) : List Nat :=
  l.drop (pySliceIdx l.length a)

/-- The `while True` extension loops of `uncompress`
(src/loxone/download_miniserver.py lines 66-71 and 86-91): repeatedly read
`data[index]`, add it to the running count, advance, and stop after the first
byte that is not `0xff`; reading past the end of `data` is an error. -/
def readLenExt : Nat → List Nat → Nat → Nat → Option (Nat × Nat)
  | 0, _, _, _ => none
  | fuel+1, data, index, acc =>
    match data.get? index with
    | none => none
    | some b =>
        if b ≠ 0xff then some (acc + b, index + 1)
        else readLenExt fuel data (index + 1) (acc + b)

/-- The match-copy loop of `uncompress` (src/loxone/download_miniserver.py
lines 94-99): while bytes remain to be copied, append `result[-off:]` when
`-off + 1 == 0` (i.e. `off == 1`) and `result[-off:-off+1]` otherwise, one
byte per iteration. -/
def copyMatch : Nat → Nat → List Nat → List Nat
  | 0, _, result => result
  | k+1, off, result =>
      let piece :=
        if (-(off:Int) + 1) = 0 then pySliceFrom result (-(off:Int))
        else pySlice result (-(off:Int)) (-(off:Int) + 1)
      copyMatch k off (result ++ piece)

/-- The packet loop of `uncompress` (src/loxone/download_miniserver.py lines
55-99), fuel-based: read the token byte (literal count in the upper nibble,
extended when it is 15; match-length nibble in the lower), copy the literal
bytes, stop when the input is exhausted, read the 16-bit little-endian offset,
compute the match length `4 + nibble` (extended when the nibble is 15), and
run the match-copy loop.  `none` models an exception (reading past the end of
the compressed data). -/
def lzLoop : Nat → List Nat → Nat → List Nat → Option (List Nat)
  | 0, _, _, _ => none
  | fuel+1, data, index, result =>
    if index < data.length then
      match data.get? index with
      | none => none
      | some byte =>
        let index1 := index + 1
        let copyBytes0 := byte / 16
        let lownib := byte % 16
        match (if copyBytes0 = 15 then readLenExt (data.length + 1) data index1 copyBytes0
               else some (copyBytes0, index1)) with
        | none => none
        | some (copyBytes, index2) =>
          let result1 :=
            if copyBytes > 0 then result ++ pySlice data (index2 : Int) ((index2 : Int) + copyBytes)
            else result
          let index3 := index2 + copyBytes
          if index3 ≥ data.length then some result1
          else
            match data.get? index3, data.get? (index3 + 1) with
            | some lo, some hi =>
              let bytesBack := lo + 256 * hi
              let index4 := index3 + 2
              let mlen0 := 4 + lownib
              match (if lownib = 15 then readLenExt (data.length + 1) data index4 mlen0
                     else some (mlen0, index4)) with
              | none => none
              | some (mlen, index5) =>
                lzLoop fuel data index5 (copyMatch mlen bytesBack result1)
            | _, _ => none
    else some result

/-- The packet loop of `uncompress` started on compressed bytes `data` with the
output buffer already holding `result` (the real decoder starts from an empty
buffer; parameterising the pre-state lets a single packet be examined). -/
def lzResume (data result : List Nat) : Option (List Nat) :=
  lzLoop (data.length + 1) data 0 result

/-- `AuthenticationUtil._zero_pad` (src/loxone/loxone_server.py lines 34-37):
append `16 - len(message) % 16` zero bytes (`AES.block_size == 16`). -/
def zero_pad (message : List Nat) : List Nat :=
  message ++ List.replicate (16 - message.length % 16) 0

/-- Byte-wise xor of two equal-length blocks (the CBC chaining step). -/
def xorBytes (a b : List Nat) : List Nat := a.zipWith (fun x y => x ^^^ y) b

/-- Split a byte string into consecutive 16-byte blocks (fuel-based). -/
def chunkBlocks : Nat → List Nat → List (List Nat)
  | _, [] => []
  | 0, _ :: _ => []
  | fuel+1, x :: xs => ((x :: xs).take 16) :: chunkBlocks fuel ((x :: xs).drop 16)

/-- CBC mode over an abstract 16-byte block transformation `enc` (the AES-256
block cipher keyed as in `encrypt_command` is not modelled; only its shape as
a block-to-block map matters to the claims). -/
def cbcEncrypt (enc : List Nat → List Nat) : List Nat → List (List Nat) → List Nat
  | _, [] => []
  | prev, blk :: rest =>
      let c := enc (xorBytes prev blk)
      c ++ cbcEncrypt enc c rest

/-- The ciphertext produced by `AuthenticationUtil.encrypt_command`
(src/loxone/loxone_server.py lines 39-47) before Base64 and URL encoding:
AES-CBC (abstract block transformation `enc`, initialisation vector `iv`) of
the zero-padded UTF-8 bytes of the command. -/
def encrypt_command (enc : List Nat → List Nat) (iv : List Nat) (command : List Nat) : List Nat :=
  cbcEncrypt enc iv (chunkBlocks (zero_pad command).length (zero_pad command))



/-- `ratFloor` of an integer is that integer. -/
theorem ratFloor_intCast (n : ℤ) : ratFloor (n : ℚ) = n := by
  simp [ratFloor]

/-- Python `round` of an integer is that integer. -/
theorem pyRound_intCast (n : ℤ) : pyRound (n : ℚ) = n := by
  simp [pyRound, ratFloor_intCast]

/-- Quantization is idempotent for a non-zero scale: re-quantizing an already
quantized value changes nothing. -/
theorem quantize_idem (s v : ℚ) (hs : s ≠ 0) : quantize s (quantize s v) = quantize s v := by
  unfold quantize
  rw [mul_div_cancel_right₀ _ hs, pyRound_intCast]

/-- Quantization with scale 1 fixes every integer value. -/
theorem quantize_one (n : ℤ) : quantize 1 (n : ℚ) = (n : ℚ) := by
  simp [quantize, pyRound_intCast]

/-- Digit-count bound for `natToHexAux`: a value below `16 ^ w` adds at most
`w` digits in front of the accumulator. -/
theorem natToHexAux_length_le :
    ∀ (fuel w n : Nat) (acc : List Char), 0 < w → n < 16 ^ w → n < fuel →
      (natToHexAux fuel n acc).length ≤ acc.length + w := by
  intro fuel
  induction fuel with
  | zero => intro w n acc _ _ hf; omega
  | succ fuel ih =>
    intro w n acc hw hn hf
    unfold natToHexAux
    by_cases h0 : n / 16 = 0
    · simp [h0]; omega
    · have hn16 : 16 ≤ n := by
        by_contra hlt
        push_neg at hlt
        exact h0 (Nat.div_eq_of_lt hlt)
      have hw2 : 2 ≤ w := by
        rcases w with _ | _ | w
        · omega
        · simp [pow_one] at hn; omega
        · omega
      have hdiv : n / 16 < 16 ^ (w - 1) := by
        have h16 : (0:ℕ) < 16 := by norm_num
        rw [Nat.div_lt_iff_lt_mul h16]
        have : 16 ^ (w - 1) * 16 = 16 ^ w := by
          rw [← pow_succ]
          congr 1
          omega
        omega
      have hfuel : n / 16 < fuel := by
        have : n / 16 < n := Nat.div_lt_self (by omega) (by norm_num)
        omega
      rw [if_neg h0]
      have := ih (w - 1) (n / 16) (Nat.digitChar (n % 16) :: acc) (by omega) hdiv hfuel
      simp only [List.length_cons] at this
      omega

/-- Digit-count bound for `natToHex`. -/
theorem natToHex_length_le (w n : Nat) (hw : 0 < w) (hn : n < 16 ^ w) :
    (natToHex n).length ≤ w := by
  have := natToHexAux_length_le (n + 1) w n [] hw hn (by omega)
  simpa using this

/-- `hexPad w` produces exactly `w` characters for values below `16 ^ w`. -/
theorem hexPad_length (w n : Nat) (hw : 0 < w) (hn : n < 16 ^ w) :
    (hexPad w n).length = w := by
  have h := natToHex_length_le w n hw hn
  simp only [hexPad, List.length_append, List.length_replicate]
  omega

/-- Taking one element of a dropped suffix picks the element at that position. -/
theorem take_one_drop (l : List Nat) (m : Nat) (h : m < l.length) :
    (l.drop m).take 1 = [l.getD m 0] := by
  rw [List.drop_eq_getElem_cons h, List.getD_eq_getElem l 0 h]
  rfl

/-- Dropping all but the last element leaves exactly the last element. -/
theorem drop_pred_length (l : List Nat) (h : 0 < l.length) :
    l.drop (l.length - 1) = [l.getD (l.length - 1) 0] := by
  have h2 : l.length - 1 < l.length := by omega
  rw [List.getD_eq_getElem l 0 h2, List.drop_eq_getElem_cons h2]
  have h3 : l.length - 1 + 1 = l.length := by omega
  rw [h3, List.drop_length]

/-- Length of CBC encryption over 16-byte chunks: with a block-size-preserving
block transformation and a 16-byte chaining input, the ciphertext has the
length of the (16-divisible) plaintext. -/
theorem cbcEncrypt_length (enc : List Nat → List Nat)
    (henc : ∀ blk : List Nat, blk.length = 16 → (enc blk).length = 16) :
    ∀ (fuel : Nat) (l prev : List Nat), prev.length = 16 → l.length % 16 = 0 →
      l.length ≤ fuel →
      (cbcEncrypt enc prev (chunkBlocks fuel l)).length = l.length := by
  intro fuel
  induction fuel with
  | zero =>
    intro l prev _ _ hf
    have : l = [] := List.eq_nil_of_length_eq_zero (by omega)
    subst this
    simp [chunkBlocks, cbcEncrypt]
  | succ fuel ih =>
    intro l prev hp hm hf
    cases l with
    | nil => simp [chunkBlocks, cbcEncrypt]
    | cons x xs =>
      simp only [List.length_cons] at hm hf
      have hlen : 15 ≤ xs.length := by omega
      have ht : ((x :: xs).take 16).length = 16 := by
        simp only [List.length_take, List.length_cons]
        omega
      have hx : (xorBytes prev ((x :: xs).take 16)).length = 16 := by
        simp only [xorBytes, List.length_zipWith, hp, ht]
        omega
      have hc := henc _ hx
      have hdroplen : ((x :: xs).drop 16).length = xs.length + 1 - 16 := by
        simp [List.length_drop]
      have hrest := ih ((x :: xs).drop 16) (enc (xorBytes prev ((x :: xs).take 16)))
        hc (by rw [hdroplen]; omega) (by rw [hdroplen]; omega)
      simp only [chunkBlocks, cbcEncrypt, List.length_append, hc, hrest, hdroplen,
        List.length_cons]
      omega

/-- The padded message always has a 16-divisible length. -/
theorem zero_pad_mod (m : List Nat) : (zero_pad m).length % 16 = 0 := by
  simp only [zero_pad, List.length_append, List.length_replicate]
  omega

/-- C1, counterexample.  A task ending with a clean close (code 1000) makes
`listen` return normally, after which `process` reconnects after 20 seconds —
it does not terminate cleanly; a close with code 1006 terminates the supervisor
with the exception instead of backing off; and an H2 reply with code 401 makes
`listen` raise `AssertionError`, which also terminates the supervisor instead
of scheduling a reconnect. -/
theorem c1_counterexample :
    processStep (Except.ok ()) (some (LoxError.connectionClosed 1000)) =
      SupervisorStep.reconnectAfter 20
    ∧ processStep (Except.ok ()) (some (LoxError.connectionClosed 1006)) =
        SupervisorStep.terminateWith (LoxError.connectionClosed 1006)
    ∧ SupervisorStep.terminateWith (LoxError.connectionClosed 1006) ≠
        SupervisorStep.reconnectAfter 20
    ∧ processStep (h2Phase "u" "E" ⟨Identifier.TEXT, "jdev/sys/getkey2/u", "401"⟩).2 none =
        SupervisorStep.terminateWith (LoxError.assertionError "unexpected code") :=
  ⟨rfl, rfl, by decide, rfl⟩

/-- C1, amended.  A server-side close with code 1000 makes `listen` return
normally and the supervisor loop then sleeps 20 seconds and starts a fresh
connection attempt; every other termination — a close with any other code, a
handshake assertion failure — propagates out of the supervisor loop and
terminates it with that error, with no backoff and no reconnect.  If H2
replies with a code other than 200, `listen` raises before computing the user
hash, the H3 command `jdev/sys/enc/...` is never sent (only the `getkey2`
command was sent), and the supervisor terminates without scheduling a
reconnect. -/
theorem c1_amended :
    (∀ code : Nat, code ≠ 1000 →
      processStep (Except.ok ()) (some (LoxError.connectionClosed code)) =
        SupervisorStep.terminateWith (LoxError.connectionClosed code))
    ∧ processStep (Except.ok ()) (some (LoxError.connectionClosed 1000)) =
        SupervisorStep.reconnectAfter 20
    ∧ (∀ msg : String,
        processStep (Except.ok ()) (some (LoxError.assertionError msg)) =
          SupervisorStep.terminateWith (LoxError.assertionError msg))
    ∧ (∀ user enc : String, ∀ resp : H2Response,
        resp.identifier = Identifier.TEXT →
        resp.control = "jdev/sys/getkey2/" ++ user →
        resp.code ≠ "200" →
        (h2Phase user enc resp).2 = Except.error (LoxError.assertionError "unexpected code")
        ∧ (h2Phase user enc resp).1 = ["jdev/sys/getkey2/" ++ user]
        ∧ processStep (h2Phase user enc resp).2 none =
            SupervisorStep.terminateWith (LoxError.assertionError "unexpected code")) := by
  refine ⟨?_, rfl, ?_, ?_⟩
  · intro code h
    simp [processStep, listenAttempt, superviseTasks, h]
  · intro msg
    rfl
  · intro user enc resp h1 h2 h3
    have hph : h2Phase user enc resp =
        (["jdev/sys/getkey2/" ++ user],
          Except.error (LoxError.assertionError "unexpected code")) := by
      simp [h2Phase, h1, h2, h3]
    refine ⟨by rw [hph], by rw [hph], ?_⟩
    rw [hph]
    rfl

/-- C1, witness for the amended theorem. -/
theorem c1_amended_witness :
    processStep (Except.ok ()) (some (LoxError.connectionClosed 1006)) =
      SupervisorStep.terminateWith (LoxError.connectionClosed 1006)
    ∧ ((h2Phase "u" "E" ⟨Identifier.TEXT, "jdev/sys/getkey2/" ++ "u", "401"⟩).2 =
         Except.error (LoxError.assertionError "unexpected code")
       ∧ (h2Phase "u" "E" ⟨Identifier.TEXT, "jdev/sys/getkey2/" ++ "u", "401"⟩).1 =
           ["jdev/sys/getkey2/" ++ "u"]
       ∧ processStep (h2Phase "u" "E" ⟨Identifier.TEXT, "jdev/sys/getkey2/" ++ "u", "401"⟩).2
           none = SupervisorStep.terminateWith (LoxError.assertionError "unexpected code")) :=
  ⟨c1_amended.1 1006 (by decide),
   c1_amended.2.2.2 "u" "E" ⟨Identifier.TEXT, "jdev/sys/getkey2/" ++ "u", "401"⟩ rfl rfl
     (by decide)⟩

/-- C2, counterexample.  A concrete failed persist attempt (change LATER, last
persist 100 seconds old, database call raises): the exception escapes
`persist_data`, and the supervisor reaction to that task failure is to cancel
the siblings and terminate with the error — the connection is torn down, the
failure is not contained in the snapshot task. -/
theorem c2_counterexample :
    (persist_data ⟨[], ChangeResponse.LATER, 0⟩ "postgresql://db" 100 DbOutcome.fail).error =
      some PersistError.dbError
    ∧ processStep (Except.ok ()) (some (LoxError.persistError PersistError.dbError)) =
        SupervisorStep.terminateWith (LoxError.persistError PersistError.dbError) :=
  ⟨by decide, rfl⟩

/-- C2, amended.  When a persist attempt fails (the database call raises),
`Building.change` keeps its pre-attempt value and `Building.lastPersisted` is
not updated, so the next trigger retries, and no rows are committed; but the
error is not contained: it propagates out of `persist_data`, terminates the
calling task, and the supervisor cancels the sibling tasks and re-raises it,
tearing down the connection and the supervisor loop. -/
theorem c2_amended (b : Building) (uri : String) (unix : Int) (e : PersistError)
    (h : (persist_data b uri unix DbOutcome.fail).error = some e) :
    (persist_data b uri unix DbOutcome.fail).building = b
    ∧ (persist_data b uri unix DbOutcome.fail).rowsTime = none
    ∧ processStep (Except.ok ()) (some (LoxError.persistError e)) =
        SupervisorStep.terminateWith (LoxError.persistError e) := by
  cases e
  refine ⟨?_, ?_, rfl⟩
  all_goals
    unfold persist_data at h ⊢
    split_ifs at h ⊢
    all_goals simp_all

/-- C2, witness for the amended theorem. -/
theorem c2_amended_witness :
    (persist_data ⟨[], ChangeResponse.LATER, 0⟩ "postgresql://db" 100 DbOutcome.fail).building =
      ⟨[], ChangeResponse.LATER, 0⟩
    ∧ (persist_data ⟨[], ChangeResponse.LATER, 0⟩ "postgresql://db" 100 DbOutcome.fail).rowsTime =
        none
    ∧ processStep (Except.ok ()) (some (LoxError.persistError PersistError.dbError)) =
        SupervisorStep.terminateWith (LoxError.persistError PersistError.dbError) :=
  c2_amended ⟨[], ChangeResponse.LATER, 0⟩ "postgresql://db" 100 PersistError.dbError (by decide)

/-- C3 (confirmed).  If `change == NO` a persist attempt returns with no side
effect at all; and a persist attempt that reaches the database and commits
(change not NO, and either IMMEDIATE or the aggregation window has elapsed,
real database uri, successful transaction) leaves `change == NO` and
`lastPersisted` equal to the snapshot timestamp `unix`, the same whole-second
timestamp used for the committed rows. -/
theorem c3_persist_commit (b : Building) (uri : String) (unix : Int) (db : DbOutcome) :
    (b.change = ChangeResponse.NO → persist_data b uri unix db = ⟨b, none, none⟩)
    ∧ (b.change ≠ ChangeResponse.NO →
        (b.change = ChangeResponse.IMMEDIATE ∨
          MAX_AGGREGATION_SECONDS ≤ unix - b.lastPersisted) →
        uri ≠ "none" →
        persist_data b uri unix DbOutcome.ok =
          ⟨{ b with change := ChangeResponse.NO, lastPersisted := unix }, some unix, none⟩) := by
  constructor
  · intro h
    simp [persist_data, h]
  · intro h1 h2 h3
    have hcond : ¬(b.change ≠ ChangeResponse.IMMEDIATE ∧
        unix - b.lastPersisted < MAX_AGGREGATION_SECONDS) := by
      rcases h2 with h2 | h2
      · exact fun hc => hc.1 h2
      · exact fun hc => absurd hc.2 (not_lt.2 h2)
    simp [persist_data, h1, hcond, h3]

/-- C3, witness. -/
theorem c3_persist_commit_witness :
    (persist_data ⟨[], ChangeResponse.NO, 3⟩ "postgresql://db" 50 DbOutcome.ok =
      ⟨⟨[], ChangeResponse.NO, 3⟩, none, none⟩)
    ∧ persist_data ⟨[], ChangeResponse.LATER, 0⟩ "postgresql://db" 50 DbOutcome.ok =
        ⟨⟨[], ChangeResponse.NO, 50⟩, some 50, none⟩ :=
  ⟨(c3_persist_commit ⟨[], ChangeResponse.NO, 3⟩ "postgresql://db" 50 DbOutcome.ok).1 rfl,
   (c3_persist_commit ⟨[], ChangeResponse.LATER, 0⟩ "postgresql://db" 50 DbOutcome.ok).2
     (by decide) (Or.inr (by decide)) (by decide)⟩

/-- C4, counterexample.  A batch containing one LATER-class update (an
`openWindow` style `BoolValue(LATER)` leaf going from unset to true), with the
last persist 100 seconds old (well past the 30-second window): the claim
requires an event-driven persist attempt, but `process_updates` does not call
`persist_data` — the batch-end trigger fires only when `change` is
IMMEDIATE. -/
theorem c4_counterexample :
    (process_updates_batch
        ⟨[("w1", Leaf.boolLeaf ⟨⟨none, ChangeResponse.LATER⟩⟩)], ChangeResponse.NO, 0⟩
        [("w1", some 1)] "postgresql://db" 100 DbOutcome.ok).building.change =
      ChangeResponse.LATER
    ∧ MAX_AGGREGATION_SECONDS ≤
        (100 : Int) - (process_updates_batch
          ⟨[("w1", Leaf.boolLeaf ⟨⟨none, ChangeResponse.LATER⟩⟩)], ChangeResponse.NO, 0⟩
          [("w1", some 1)] "postgresql://db" 100 DbOutcome.ok).building.lastPersisted
    ∧ (process_updates_batch
        ⟨[("w1", Leaf.boolLeaf ⟨⟨none, ChangeResponse.LATER⟩⟩)], ChangeResponse.NO, 0⟩
        [("w1", some 1)] "postgresql://db" 100 DbOutcome.ok).persistCalled = false := by
  refine ⟨by decide, by decide, by decide⟩

/-- C4, amended.  After each batch of value-state updates, `persist_data` is
invoked if and only if the resulting `building.change` is IMMEDIATE; when it is
LATER, no event-driven persist occurs regardless of how much time has passed
since the last persist (so LATER updates within 5 seconds of the previous
persist in particular cause no persist) — LATER-class changes are only written
by the scheduled 30-second loop, whose `persist_data` call does commit once
the aggregation window has elapsed. -/
theorem c4_amended (b : Building) (states : List (String × Option ℚ)) (uri : String)
    (unix : Int) (db : DbOutcome) :
    ((process_updates_batch b states uri unix db).persistCalled = true ↔
      (processUpdatesBatch b states).change = ChangeResponse.IMMEDIATE)
    ∧ ((processUpdatesBatch b states).change ≠ ChangeResponse.IMMEDIATE →
        process_updates_batch b states uri unix db =
          ⟨processUpdatesBatch b states, false, none⟩)
    ∧ ((processUpdatesBatch b states).change = ChangeResponse.LATER →
        MAX_AGGREGATION_SECONDS ≤ unix - (processUpdatesBatch b states).lastPersisted →
        uri ≠ "none" →
        (persist_data (processUpdatesBatch b states) uri unix DbOutcome.ok).building.change =
          ChangeResponse.NO) := by
  refine ⟨?_, ?_, ?_⟩
  · cases h : (processUpdatesBatch b states).change <;>
      simp [process_updates_batch, h, ChangeResponse.value]
  · intro h
    cases hc : (processUpdatesBatch b states).change <;>
      simp_all [process_updates_batch, ChangeResponse.value]
  · intro h1 h2 h3
    have hno : (processUpdatesBatch b states).change ≠ ChangeResponse.NO := by
      rw [h1]; decide
    have hcond : ¬((processUpdatesBatch b states).change ≠ ChangeResponse.IMMEDIATE ∧
        unix - (processUpdatesBatch b states).lastPersisted < MAX_AGGREGATION_SECONDS) := by
      exact fun hc => absurd hc.2 (not_lt.2 h2)
    simp [persist_data, hno, hcond, h3]

/-- C4, witness for the amended theorem. -/
theorem c4_amended_witness :
    process_updates_batch
        ⟨[("w1", Leaf.boolLeaf ⟨⟨none, ChangeResponse.LATER⟩⟩)], ChangeResponse.NO, 0⟩
        [("w1", some 1)] "postgresql://db" 100 DbOutcome.ok =
      ⟨processUpdatesBatch
          ⟨[("w1", Leaf.boolLeaf ⟨⟨none, ChangeResponse.LATER⟩⟩)], ChangeResponse.NO, 0⟩
          [("w1", some 1)], false, none⟩
    ∧ (persist_data
        (processUpdatesBatch
          ⟨[("w1", Leaf.boolLeaf ⟨⟨none, ChangeResponse.LATER⟩⟩)], ChangeResponse.NO, 0⟩
          [("w1", some 1)]) "postgresql://db" 100 DbOutcome.ok).building.change =
      ChangeResponse.NO :=
  ⟨(c4_amended ⟨[("w1", Leaf.boolLeaf ⟨⟨none, ChangeResponse.LATER⟩⟩)], ChangeResponse.NO, 0⟩
      [("w1", some 1)] "postgresql://db" 100 DbOutcome.ok).2.1 (by decide),
   (c4_amended ⟨[("w1", Leaf.boolLeaf ⟨⟨none, ChangeResponse.LATER⟩⟩)], ChangeResponse.NO, 0⟩
      [("w1", some 1)] "postgresql://db" 100 DbOutcome.ok).2.2 (by decide) (by decide)
      (by decide)⟩

/-- C5, counterexample.  A building whose routing table maps `"id1"` to a
`BoolValue(IMMEDIATE)` leaf, with `change == NO`: `Building.update` returns
IMMEDIATE, yet the `change` cursor of the returned building is still NO — the
building does not record `change := max(change, response)` as part of the
call (`Registry.update` never touches `change`; the recording happens in the
ingest loop of monitor.py). -/
theorem c5_counterexample :
    (Building.update
        ⟨[("id1", Leaf.boolLeaf ⟨⟨none, ChangeResponse.IMMEDIATE⟩⟩)], ChangeResponse.NO, 7⟩
        "id1" (some 1)).1 = ChangeResponse.IMMEDIATE
    ∧ (Building.update
        ⟨[("id1", Leaf.boolLeaf ⟨⟨none, ChangeResponse.IMMEDIATE⟩⟩)], ChangeResponse.NO, 7⟩
        "id1" (some 1)).2.change = ChangeResponse.NO
    ∧ ChangeResponse.NO ≠ ChangeResponse.IMMEDIATE := by
  refine ⟨by decide, by decide, by decide⟩

/-- C5, amended.  `Building.update(id, v)` returns the change response of the
routed leaf (`NO` when the id is not in the routing table) and leaves
`building.change` untouched; the recording `change := max(change, response)`
(under the ordering NO < LATER < IMMEDIATE) is performed by the ingest loop of
`process_updates` after each update, not by `Building.update` itself. -/
theorem c5_amended (b : Building) (id : String) (v : Option ℚ) :
    (Building.update b id v).2.change = b.change
    ∧ (b.registry.lookup id = none → Building.update b id v = (ChangeResponse.NO, b))
    ∧ (∀ leaf : Leaf, b.registry.lookup id = some leaf →
        (Building.update b id v).1 = (leaf.update v).1)
    ∧ (processOneUpdate b id v).change.value =
        max b.change.value (Building.update b id v).1.value := by
  have h1 : (Building.update b id v).2.change = b.change := by
    cases hl : b.registry.lookup id <;> simp [Building.update, hl]
  refine ⟨h1, ?_, ?_, ?_⟩
  · intro hl
    simp [Building.update, hl]
  · intro leaf hl
    simp [Building.update, hl]
  · unfold processOneUpdate
    by_cases hgt : (Building.update b id v).1.value > (Building.update b id v).2.change.value
    · rw [if_pos hgt]
      rw [h1] at hgt
      simp only []
      omega
    · rw [if_neg hgt]
      rw [h1] at hgt
      rw [h1]
      omega

/-- C5, witness for the amended theorem. -/
theorem c5_amended_witness :
    (Building.update
        ⟨[("id1", Leaf.boolLeaf ⟨⟨none, ChangeResponse.IMMEDIATE⟩⟩)], ChangeResponse.NO, 7⟩
        "id1" (some 1)).2.change = ChangeResponse.NO
    ∧ (Building.update
        ⟨[("id1", Leaf.boolLeaf ⟨⟨none, ChangeResponse.IMMEDIATE⟩⟩)], ChangeResponse.NO, 7⟩
        "id1" (some 1)).1 =
        (Leaf.update (Leaf.boolLeaf ⟨⟨none, ChangeResponse.IMMEDIATE⟩⟩) (some 1)).1
    ∧ (processOneUpdate
        ⟨[("id1", Leaf.boolLeaf ⟨⟨none, ChangeResponse.IMMEDIATE⟩⟩)], ChangeResponse.NO, 7⟩
        "id1" (some 1)).change.value =
      max ChangeResponse.NO.value
        (Building.update
          ⟨[("id1", Leaf.boolLeaf ⟨⟨none, ChangeResponse.IMMEDIATE⟩⟩)], ChangeResponse.NO, 7⟩
          "id1" (some 1)).1.value :=
  ⟨(c5_amended
      ⟨[("id1", Leaf.boolLeaf ⟨⟨none, ChangeResponse.IMMEDIATE⟩⟩)], ChangeResponse.NO, 7⟩
      "id1" (some 1)).1,
   (c5_amended
      ⟨[("id1", Leaf.boolLeaf ⟨⟨none, ChangeResponse.IMMEDIATE⟩⟩)], ChangeResponse.NO, 7⟩
      "id1" (some 1)).2.2.1 (Leaf.boolLeaf ⟨⟨none, ChangeResponse.IMMEDIATE⟩⟩) (by decide),
   (c5_amended
      ⟨[("id1", Leaf.boolLeaf ⟨⟨none, ChangeResponse.IMMEDIATE⟩⟩)], ChangeResponse.NO, 7⟩
      "id1" (some 1)).2.2.2⟩

/-- C6 (confirmed).  Each leaf quantizes (`RoundedValue`) or coerces
(`BoolValue`) the input first and compares to the stored value only
afterwards, so a redundant update — one whose quantized/coerced candidate
equals the stored value — returns `NO` and leaves the stored value unchanged;
in particular, after `RoundedValue.setValue v`, a second call with the already
quantized value `quantize scale v` is classified `NO` (for any non-zero
scale). -/
theorem c6_quantize_before_compare :
    (∀ (s : RoundedValue) (v : ℚ), s.raw.value = some (quantize s.scale v) →
      s.setValue (some v) = (ChangeResponse.NO, s))
    ∧ (∀ (s : BoolValue) (v : ℚ), s.raw.value = some (pyBool v) →
      s.setValue (some v) = (ChangeResponse.NO, s))
    ∧ (∀ (s : RoundedValue) (v : ℚ), s.scale ≠ 0 →
      ((s.setValue (some v)).2.setValue (some (quantize s.scale v))).1 = ChangeResponse.NO) := by
  have hred : ∀ (s : RoundedValue) (v : ℚ), s.raw.value = some (quantize s.scale v) →
      s.setValue (some v) = (ChangeResponse.NO, s) := by
    intro s v h
    simp [RoundedValue.setValue, RawValue.setValue, h]
  refine ⟨hred, ?_, ?_⟩
  · intro s v h
    simp [BoolValue.setValue, RawValue.setValue, h]
  · intro s v hs
    have hscale : (s.setValue (some v)).2.scale = s.scale := by
      unfold RoundedValue.setValue RawValue.setValue
      by_cases h : s.raw.value = some (quantize s.scale v) <;> simp [h]
    have hval : (s.setValue (some v)).2.raw.value = some (quantize s.scale v) := by
      unfold RoundedValue.setValue RawValue.setValue
      by_cases h : s.raw.value = some (quantize s.scale v) <;> simp [h]
    have happ := hred (s.setValue (some v)).2 (quantize s.scale v) ?_
    · rw [happ]
    · rw [hscale, quantize_idem s.scale v hs, hval]

/-- C6, witness. -/
theorem c6_quantize_before_compare_witness :
    RoundedValue.setValue ⟨⟨some ((5:ℤ):ℚ), ChangeResponse.LATER⟩, 1⟩ (some ((5:ℤ):ℚ)) =
      (ChangeResponse.NO, ⟨⟨some ((5:ℤ):ℚ), ChangeResponse.LATER⟩, 1⟩)
    ∧ BoolValue.setValue ⟨⟨some true, ChangeResponse.IMMEDIATE⟩⟩ (some 1) =
        (ChangeResponse.NO, ⟨⟨some true, ChangeResponse.IMMEDIATE⟩⟩)
    ∧ ((RoundedValue.setValue ⟨⟨none, ChangeResponse.LATER⟩, 1⟩ (some ((5:ℤ):ℚ))).2.setValue
        (some (quantize 1 ((5:ℤ):ℚ)))).1 = ChangeResponse.NO :=
  ⟨c6_quantize_before_compare.1 ⟨⟨some ((5:ℤ):ℚ), ChangeResponse.LATER⟩, 1⟩ ((5:ℤ):ℚ)
      (by rw [quantize_one]),
   c6_quantize_before_compare.2.1 ⟨⟨some true, ChangeResponse.IMMEDIATE⟩⟩ 1 (by decide),
   c6_quantize_before_compare.2.2 ⟨⟨none, ChangeResponse.LATER⟩, 1⟩ ((5:ℤ):ℚ) one_ne_zero⟩

/-- C7 (confirmed).  The identifier of a value-state record is rendered as
four dash-separated lowercase-hex groups of 8, 4, 4 and 16 characters (the
last group is the 8 node bytes as 16 hex characters, not the RFC-4122 8+12
split); in particular the record beginning
01 00 00 00 02 00 03 00 04 05 06 07 08 09 0A 0B renders
00000001-0002-0003-0405060708090a0b. -/
theorem c7_uuid_rendering :
    (∀ b : List Nat, b.length = 16 → (∀ x ∈ b, x < 256) →
      ∃ g1 g2 g3 g4 : List Char,
        renderValueId b = String.mk (g1 ++ '-' :: (g2 ++ '-' :: (g3 ++ '-' :: g4)))
        ∧ g1.length = 8 ∧ g2.length = 4 ∧ g3.length = 4 ∧ g4.length = 16)
    ∧ renderValueId [1, 0, 0, 0, 2, 0, 3, 0, 4, 5, 6, 7, 8, 9, 10, 11] =
        "00000001-0002-0003-0405060708090a0b" := by
  constructor
  · intro b hlen hmem
    have hb : ∀ i : Nat, i < 16 → b.getD i 0 < 256 := by
      intro i hi
      have hi2 : i < b.length := by omega
      rw [List.getD_eq_getElem b 0 hi2]
      exact hmem _ (List.getElem_mem hi2)
    have hp2 : ∀ i : Nat, i < 16 → (hexPad 2 (b.getD i 0)).length = 2 := by
      intro i hi
      refine hexPad_length 2 _ (by norm_num) ?_
      rw [show (16:ℕ)^2 = 256 from by norm_num]
      exact hb i hi
    refine ⟨_, _, _, _, rfl, ?_, ?_, ?_, ?_⟩
    · refine hexPad_length 8 _ (by norm_num) ?_
      rw [show (16:ℕ)^8 = 4294967296 from by norm_num]
      have h0 := hb 0 (by omega)
      have h1 := hb 1 (by omega)
      have h2 := hb 2 (by omega)
      have h3 := hb 3 (by omega)
      omega
    · refine hexPad_length 4 _ (by norm_num) ?_
      rw [show (16:ℕ)^4 = 65536 from by norm_num]
      have h4 := hb 4 (by omega)
      have h5 := hb 5 (by omega)
      omega
    · refine hexPad_length 4 _ (by norm_num) ?_
      rw [show (16:ℕ)^4 = 65536 from by norm_num]
      have h6 := hb 6 (by omega)
      have h7 := hb 7 (by omega)
      omega
    · simp only [List.length_append, hp2 8 (by omega), hp2 9 (by omega), hp2 10 (by omega),
        hp2 11 (by omega), hp2 12 (by omega), hp2 13 (by omega), hp2 14 (by omega),
        hp2 15 (by omega)]
  · decide

/-- C7, witness. -/
theorem c7_uuid_rendering_witness :
    ∃ g1 g2 g3 g4 : List Char,
      renderValueId [1, 0, 0, 0, 2, 0, 3, 0, 4, 5, 6, 7, 8, 9, 10, 11] =
        String.mk (g1 ++ '-' :: (g2 ++ '-' :: (g3 ++ '-' :: g4)))
      ∧ g1.length = 8 ∧ g2.length = 4 ∧ g3.length = 4 ∧ g4.length = 16 :=
  c7_uuid_rendering.1 [1, 0, 0, 0, 2, 0, 3, 0, 4, 5, 6, 7, 8, 9, 10, 11] (by decide) (by decide)

/-- C8 (confirmed).  In the match phase of the decompressor, each of the
`mlen` bytes is emitted individually, copied from position
`output length - offset` of the output as it stands at the moment of that
emission; hence offset 1 performs run-length expansion of the last byte, and
the concrete packet `00 01 00` (token 0, offset 1, match length 4) applied to
the current output "X" (byte 88) extends it to "XXXXX". -/
theorem c8_match_phase :
    (∀ (k off : Nat) (res : List Nat), 1 ≤ off → off ≤ res.length →
      copyMatch (k+1) off res = copyMatch k off (res ++ [res.getD (res.length - off) 0]))
    ∧ (∀ (k : Nat) (ys : List Nat) (x : Nat),
        copyMatch k 1 (ys ++ [x]) = ys ++ x :: List.replicate k x)
    ∧ lzResume [0, 1, 0] [88] = some [88, 88, 88, 88, 88] := by
  have hstep : ∀ (k off : Nat) (res : List Nat), 1 ≤ off → off ≤ res.length →
      copyMatch (k+1) off res = copyMatch k off (res ++ [res.getD (res.length - off) 0]) := by
    intro k off res h1 h2
    have hpos : 0 < res.length := by omega
    have hidxa : pySliceIdx res.length (-(off:Int)) = res.length - off := by
      simp only [pySliceIdx]
      rw [if_pos (show -(off:Int) < 0 by omega)]
      omega
    by_cases hoff : (-(off:Int) + 1) = 0
    · have hoff1 : off = 1 := by omega
      subst hoff1
      simp only [copyMatch, pySliceFrom]
      rw [if_pos hoff, hidxa]
      rw [drop_pred_length res hpos]
    · have hidxb : pySliceIdx res.length (-(off:Int) + 1) = res.length - off + 1 := by
        simp only [pySliceIdx]
        rw [if_pos (show -(off:Int) + 1 < 0 by omega)]
        omega
      have hlt : res.length - off < res.length := by omega
      simp only [copyMatch, pySlice]
      rw [if_neg hoff, hidxa, hidxb]
      rw [show res.length - off + 1 - (res.length - off) = 1 from by omega]
      rw [take_one_drop res (res.length - off) hlt]
  refine ⟨hstep, ?_, by decide⟩
  · intro k
    induction k with
    | zero => intro ys x; simp [copyMatch]
    | succ k ih =>
      intro ys x
      have h1 : (1:Nat) ≤ 1 := le_refl 1
      have h2 : (1:Nat) ≤ (ys ++ [x]).length := by simp
      rw [hstep k 1 (ys ++ [x]) h1 h2]
      have hlast : (ys ++ [x]).getD ((ys ++ [x]).length - 1) 0 = x := by
        simp only [List.length_append, List.length_singleton]
        rw [show ys.length + 1 - 1 = ys.length from by omega]
        rw [List.getD_eq_getElem (ys ++ [x]) 0 (by simp)]
        simp
      rw [hlast]
      rw [show (ys ++ [x]) ++ [x] = ys ++ [x] ++ [x] from rfl]
      rw [ih (ys ++ [x]) x]
      simp [List.replicate_succ]

/-- C8, witness. -/
theorem c8_match_phase_witness :
    copyMatch (0+1) 1 [5] = copyMatch 0 1 ([5] ++ [List.getD [5] (List.length [5] - 1) 0]) :=
  c8_match_phase.1 0 1 [5] (by decide) (by decide)

/-- C9, counterexample.  A frame header with info byte 0x81 — high bit set,
but not equal to 0x80 — is NOT skipped: `MessageHeader.parse` returns that
header itself (TEXT, size 5) rather than the header parsed from the next
socket message (KEEPALIVE, size 0).  The code compares `info == 0x80` exactly,
not the high bit. -/
theorem c9_counterexample :
    MessageHeader.parse [⟨3, 0, 0x81, 0, 5⟩, ⟨3, 6, 0, 0, 0⟩] =
      Except.ok (Identifier.TEXT, 5)
    ∧ MessageHeader.parse [⟨3, 6, 0, 0, 0⟩] = Except.ok (Identifier.KEEPALIVE, 0)
    ∧ Identifier.TEXT ≠ Identifier.KEEPALIVE :=
  ⟨rfl, rfl, by decide⟩

/-- C9, amended.  Only a frame header whose info byte equals exactly 0x80 is
treated as an estimation header: for such a header (with a valid prefix byte
and a known identifier) `MessageHeader.parse` skips it and returns the header
parsed from the next socket message, so the caller never observes a header
with info equal to 0x80; an info byte that merely has the high bit set (for
example 0x81) is returned as an ordinary header. -/
theorem c9_amended (h : RawHeader) (rest : List RawHeader)
    (hbin : h.binType = 3) (hconv : (Identifier.convert h.identifier).isSome)
    (hinfo : h.info = 0x80) :
    MessageHeader.parse (h :: rest) = MessageHeader.parse rest := by
  obtain ⟨ident, hident⟩ := Option.isSome_iff_exists.mp hconv
  simp [MessageHeader.parse, hbin, hident, hinfo]

/-- C9, witness for the amended theorem. -/
theorem c9_amended_witness :
    MessageHeader.parse [⟨3, 2, 0x80, 9, 99⟩, ⟨3, 6, 0, 0, 0⟩] =
      MessageHeader.parse [⟨3, 6, 0, 0, 0⟩] :=
  c9_amended ⟨3, 2, 0x80, 9, 99⟩ [⟨3, 6, 0, 0, 0⟩] rfl (by decide) rfl

/-- C10 (confirmed).  `_zero_pad` appends between 1 and 16 zero bytes and
produces a length that is a multiple of the AES block size 16; when the
message length is already a multiple of 16, a full extra block of 16 zero
bytes is appended, so the AES-CBC ciphertext of `encrypt_command` on a command
whose UTF-8 byte length is a multiple of 16 is one block (16 bytes) longer
than the plaintext. -/
theorem c10_zero_pad :
    (∀ m : List Nat,
      zero_pad m = m ++ List.replicate (16 - m.length % 16) 0
      ∧ 1 ≤ 16 - m.length % 16 ∧ 16 - m.length % 16 ≤ 16
      ∧ (zero_pad m).length % 16 = 0)
    ∧ (∀ m : List Nat, m.length % 16 = 0 → (zero_pad m).length = m.length + 16)
    ∧ (∀ (enc : List Nat → List Nat) (iv m : List Nat),
        (∀ blk : List Nat, blk.length = 16 → (enc blk).length = 16) →
        iv.length = 16 → m.length % 16 = 0 →
        (encrypt_command enc iv m).length = m.length + 16) := by
  refine ⟨?_, ?_, ?_⟩
  · intro m
    refine ⟨rfl, by omega, by omega, zero_pad_mod m⟩
  · intro m h
    simp only [zero_pad, List.length_append, List.length_replicate]
    omega
  · intro enc iv m henc hiv hm
    have hlen := cbcEncrypt_length enc henc (zero_pad m).length (zero_pad m) iv hiv
      (zero_pad_mod m) (le_refl _)
    unfold encrypt_command
    rw [hlen]
    simp only [zero_pad, List.length_append, List.length_replicate]
    omega

/-- C10, witness. -/
theorem c10_zero_pad_witness :
    (zero_pad (List.replicate 32 5)).length = (List.replicate 32 (5:ℕ)).length + 16
    ∧ (encrypt_command (fun blk => blk) (List.replicate 16 0) (List.replicate 16 7)).length =
        (List.replicate 16 (7:ℕ)).length + 16 :=
  ⟨c10_zero_pad.2.1 (List.replicate 32 5) (by decide),
   c10_zero_pad.2.2 (fun blk => blk) (List.replicate 16 0) (List.replicate 16 7)
     (fun _ hb => hb) (by decide) (by decide)⟩
